import Mathlib

/-!
Shallow embedding of the trading decision core of the repository
(`src/backend/smc_strategy.py` and `src/backend/app.py`), with theorems
settling the specification claims. Python floats are modelled as exact
rationals; Python dicts become structures; a dict key that may be absent
becomes an `Option` field; list indexing, guarded in-range in the source,
is modelled with a default-candle read `getC`.
-/

namespace SMC

/-- Polarity of a detected event ('BULLISH'/'BEARISH' strings in the source,
also the 'BULLISH_CHOCH'/'BULLISH_ENGULFING' variants). -/
inductive Polarity where
  | bullish
  | bearish
deriving DecidableEq, Repr

/-- Trade direction strings 'BUY' / 'SELL' / 'NEUTRAL' of the source. -/
inductive Direction where
  | buy
  | sell
  | neutral
deriving DecidableEq, Repr

/-- One OHLCV candle row of the DataFrame built in `trading_loop`
(columns time, open, high, low, close, volume, all numeric). -/
structure Candle where
  time : ℚ
  «open» : ℚ
  high : ℚ
  low : ℚ
  close : ℚ
  volume : ℚ
deriving DecidableEq, Repr

/-- Order-block event dict (`detect_order_blocks`): type, high, low, time,
confirmed (always False at creation). -/
structure OBEvent where
  type : Polarity
  high : ℚ
  low : ℚ
  time : ℚ
  confirmed : Bool
deriving DecidableEq, Repr

/-- CHoCH event dict (`detect_choch`): type, price, time. -/
structure ChochEvent where
  type : Polarity
  price : ℚ
  time : ℚ
deriving DecidableEq, Repr

/-- Engulfing event dict (`detect_engulfing`): type, time, strength. -/
structure EngEvent where
  type : Polarity
  time : ℚ
  strength : ℚ
deriving DecidableEq, Repr

/-- Default candle used to give the guarded `iloc[i]` reads a total model. -/
def dfltCandle : Candle := ⟨0, 0, 0, 0, 0, 0⟩

/-- `df['...'].iloc[i]` row read; every use in the source is in range,
where this coincides with the Python access. -/
def getC (df : List Candle) (i : ℕ) : Candle := df.getD i dfltCandle

/-- Loop body of `detect_order_blocks` at index `i` (smc_strategy.py
lines 14-35): the bullish append, then the bearish append. -/
def obAt (df : List Candle) (i : ℕ) : List OBEvent :=
  (if (getC df i).close > (getC df i).«open» ∧ i + 1 < df.length ∧
      (getC df (i+1)).close < (getC df (i+1)).«open» then
    [{ type := Polarity.bullish, high := (getC df i).high, low := (getC df i).low,
       time := (getC df i).time, confirmed := false }]
  else []) ++
  (if (getC df i).close < (getC df i).«open» ∧ i + 1 < df.length ∧
      (getC df (i+1)).close > (getC df (i+1)).«open» then
    [{ type := Polarity.bearish, high := (getC df i).high, low := (getC df i).low,
       time := (getC df i).time, confirmed := false }]
  else [])

/-- `SMCStrategy.detect_order_blocks(df, lookback=50)`: the loop
`for i in range(lookback, len(df))` appending order-block events. -/
def detect_order_blocks (df : List Candle) (lookback : ℕ) : List OBEvent :=
  (List.range' lookback (df.length - lookback)).flatMap (obAt df)

/-- Maximum of a list of rationals (`pandas .max()` over a nonempty slice;
the empty case is unreachable in the source). -/
def listMax : List ℚ → ℚ
  | [] => 0
  | x :: xs => xs.foldl max x

/-- Minimum of a list of rationals (`pandas .min()`). -/
def listMin : List ℚ → ℚ
  | [] => 0
  | x :: xs => xs.foldl min x

/-- Python slice `df[a:i]` of the candle list (elements a..i-1). -/
def slice (df : List Candle) (a i : ℕ) : List Candle :=
  (df.drop a).take (i - a)

/-- Loop body of `detect_choch` at index `i` (smc_strategy.py lines 44-59):
rolling 20-high / 20-low break, bullish branch first (`elif` for bearish). -/
def chochAt (df : List Candle) (i : ℕ) : Option ChochEvent :=
  let recent_high := listMax ((slice df (i - 20) i).map Candle.high)
  let recent_low := listMin ((slice df (i - 20) i).map Candle.low)
  if (getC df i).high > recent_high then
    some { type := Polarity.bullish, price := (getC df i).high, time := (getC df i).time }
  else if (getC df i).low < recent_low then
    some { type := Polarity.bearish, price := (getC df i).low, time := (getC df i).time }
  else none

/-- `SMCStrategy.detect_choch(df)`: loop `for i in range(2, len(df))`. -/
def detect_choch (df : List Candle) : List ChochEvent :=
  (List.range' 2 (df.length - 2)).filterMap (chochAt df)

/-- Loop body of `detect_engulfing` at index `i` (smc_strategy.py
lines 67-91): bullish engulfing append, then bearish engulfing append.
The bearish strength denominator is `curr_open - prev_open`, exactly as
in the source (line 90). -/
def engAt (df : List Candle) (i : ℕ) : List EngEvent :=
  let prev_open := (getC df (i-1)).«open»
  let prev_close := (getC df (i-1)).close
  let curr_open := (getC df i).«open»
  let curr_close := (getC df i).close
  (if prev_close < prev_open ∧ curr_close > prev_open ∧ curr_open < prev_close then
    [{ type := Polarity.bullish, time := (getC df i).time,
       strength := (curr_close - curr_open) / (prev_close - prev_open) }]
  else []) ++
  (if prev_close > prev_open ∧ curr_close < prev_open ∧ curr_open > prev_close then
    [{ type := Polarity.bearish, time := (getC df i).time,
       strength := (curr_open - curr_close) / (curr_open - prev_open) }]
  else [])

/-- `SMCStrategy.detect_engulfing(df)`: loop `for i in range(1, len(df))`. -/
def detect_engulfing (df : List Candle) : List EngEvent :=
  (List.range' 1 (df.length - 1)).flatMap (engAt df)

/-- Signal dict returned by `generate_signal` (smc_strategy.py lines 142-150).
The Python dict has no `entry_price` key; `entry_price` is an `Option` so
that `signal.get('entry_price', 10000)` in `calculate_position` can be
modelled as `getD 10000`, with `none` standing for the absent key. -/
structure Signal where
  symbol : String
  direction : Direction
  confidence : ℚ
  order_blocks : List OBEvent
  choch : Option ChochEvent
  engulfing : Option EngEvent
  timestamp : Option ℚ
  entry_price : Option ℚ
deriving DecidableEq, Repr

/-- Fusion core of `generate_signal` (smc_strategy.py lines 102-152),
taking the three detector outputs: accumulate `signal_strength`, assign
`direction` (order block unconditionally, CHoCH/engulfing only while
NEUTRAL), then emit iff strength ≥ 0.5 with confidence min(strength, 1). -/
def signalCore (order_blocks : List OBEvent) (choch : List ChochEvent)
    (engulfing : List EngEvent) (symbol : String) (timestamp : Option ℚ) :
    Option Signal :=
  let sd1 : ℚ × Direction :=
    match order_blocks.getLast? with
    | some ob =>
      if ob.type = Polarity.bullish then (0 + 0.4, Direction.buy)
      else (0 + 0.4, Direction.sell)
    | none => (0, Direction.neutral)
  let sd2 : ℚ × Direction :=
    match choch.getLast? with
    | some c =>
      if c.type = Polarity.bullish then
        (sd1.1 + 0.3, if sd1.2 = Direction.neutral then Direction.buy else sd1.2)
      else
        (sd1.1 + 0.3, if sd1.2 = Direction.neutral then Direction.sell else sd1.2)
    | none => sd1
  let sd3 : ℚ × Direction :=
    match engulfing.getLast? with
    | some e =>
      if e.type = Polarity.bullish then
        (sd2.1 + 0.3, if sd2.2 = Direction.neutral then Direction.buy else sd2.2)
      else
        (sd2.1 + 0.3, if sd2.2 = Direction.neutral then Direction.sell else sd2.2)
    | none => sd2
  if sd3.1 ≥ 0.5 then
    some { symbol := symbol, direction := sd3.2, confidence := min sd3.1 1,
           order_blocks := order_blocks.drop (order_blocks.length - 3),
           choch := choch.getLast?, engulfing := engulfing.getLast?,
           timestamp := timestamp, entry_price := none }
  else none

/-- `SMCStrategy.generate_signal(df, symbol)`: run the three detectors
(order blocks with the default lookback 50) and fuse; timestamp is
`df['time'].iloc[-1] if len(df) > 0 else None`. -/
def generate_signal (df : List Candle) (symbol : String) : Option Signal :=
  signalCore (detect_order_blocks df 50) (detect_choch df) (detect_engulfing df)
    symbol ((df.getLast?).map Candle.time)

/-- The accumulated `signal_strength` of the fusion stage: 0.4 when an
order-block event exists, 0.3 more for a CHoCH event, 0.3 more for an
engulfing event. -/
def fusionStrength (order_blocks : List OBEvent) (choch : List ChochEvent)
    (engulfing : List EngEvent) : ℚ :=
  (match order_blocks.getLast? with | some _ => (0.4 : ℚ) | none => 0)
    + (match choch.getLast? with | some _ => (0.3 : ℚ) | none => 0)
    + (match engulfing.getLast? with | some _ => (0.3 : ℚ) | none => 0)

/-- `RISK_PARAMS` of config.py. -/
structure RiskParams where
  max_risk_per_trade : ℚ
  max_position_size : ℚ
  reward_risk_ratio : ℚ
  max_drawdown : ℚ
  max_open_trades : ℕ
deriving DecidableEq, Repr

/-- The concrete `RISK_PARAMS` values of config.py lines 24-30. -/
def RISK_PARAMS : RiskParams :=
  { max_risk_per_trade := 0.01, max_position_size := 0.05,
    reward_risk_ratio := 2.0, max_drawdown := 0.15, max_open_trades := 3 }

/-- Position plan dict returned by `calculate_position`
(smc_strategy.py lines 181-189). -/
structure PositionPlan where
  entry_price : ℚ
  stop_loss : ℚ
  take_profit : ℚ
  position_size : ℚ
  side : Direction
  risk_amount : ℚ
  potential_profit : ℚ
deriving DecidableEq, Repr

/-- `SMCStrategy.calculate_position(signal, account_balance)`
(smc_strategy.py lines 154-189): return None on no signal or
confidence < 0.5; otherwise size the trade. `entry_price` is
`signal.get('entry_price', 10000)` — the hardcoded fallback. -/
def calculate_position (rp : RiskParams) (signal : Option Signal)
    (account_balance : ℚ) : Option PositionPlan :=
  match signal with
  | none => none
  | some s =>
    if s.confidence < 0.5 then none
    else
      let risk_amount := account_balance * rp.max_risk_per_trade
      let entry_price := s.entry_price.getD 10000
      let stop_loss :=
        if s.direction = Direction.buy then entry_price * 0.98
        else entry_price * 1.02
      let take_profit :=
        if s.direction = Direction.buy then
          entry_price * (1 + rp.reward_risk_ratio * 0.02)
        else entry_price * (1 - rp.reward_risk_ratio * 0.02)
      let sl_distance := |entry_price - stop_loss|
      let raw_size := if sl_distance > 0 then risk_amount / sl_distance else 0
      let max_size := account_balance * rp.max_position_size / entry_price
      let position_size := min raw_size max_size
      some { entry_price := entry_price, stop_loss := stop_loss,
             take_profit := take_profit, position_size := position_size,
             side := s.direction, risk_amount := risk_amount,
             potential_profit := position_size * |take_profit - entry_price| }

/-- Trade status strings 'OPEN' / 'CLOSED'. -/
inductive TradeStatus where
  | opened
  | closed
deriving DecidableEq, Repr

/-- Trade dict built in `trading_loop` (app.py lines 111-124); `closed_at`
is absent (`none`) until reconciliation stamps it. -/
structure Trade where
  id : ℕ
  symbol : String
  side : Direction
  entry_price : ℚ
  size : ℚ
  stop_loss : ℚ
  take_profit : ℚ
  risk : ℚ
  potential_profit : ℚ
  pnl : ℚ
  status : TradeStatus
  opened_at : String
  closed_at : Option String
deriving DecidableEq, Repr

/-- One entry of the exchange position snapshot (`get_positions()['result']`).
`realized_pnl` and `size` are read with `.get(..., 0)` in the source, so
they are `Option`s here. -/
structure Position where
  product_symbol : String
  realized_pnl : Option ℚ
  size : Option ℚ
deriving DecidableEq, Repr

/-- The mutable `bot_state` dict of app.py lines 22-32 (the `last_update`
string is omitted: no claim reads it and `get_status` regenerates it). -/
structure BotState where
  running : Bool
  environment : String
  account_balance : ℚ
  open_trades : List Trade
  closed_trades : List Trade
  total_pnl : ℚ
  win_count : ℕ
  loss_count : ℕ
deriving DecidableEq, Repr

/-- Trade insertion step of `trading_loop` (app.py line 126):
`bot_state['open_trades'].append(trade)` — an unconditional append. -/
def insertTrade (st : BotState) (t : Trade) : BotState :=
  { st with open_trades := st.open_trades ++ [t] }

/-- First position whose `product_symbol` equals the trade's symbol
(app.py lines 150-154). -/
def findPos (ps : List Position) (sym : String) : Option Position :=
  ps.find? (fun p => p.product_symbol == sym)

/-- Body of the `update_open_trades` loop for one trade (app.py
lines 148-174), threading the bot state: no match leaves the trade in the
open set unchanged; a match updates pnl; a match of size 0 closes the
trade (stamp `closed_at`, move to the closed set, update totals). -/
def reconcileStep (ps : List Position) (now : String) (acc : BotState)
    (t : Trade) : BotState :=
  match findPos ps t.symbol with
  | none => { acc with open_trades := acc.open_trades ++ [t] }
  | some p =>
    let t1 := { t with pnl := p.realized_pnl.getD 0 }
    if p.size.getD 0 = 0 then
      let t2 := { t1 with status := TradeStatus.closed, closed_at := some now }
      { acc with
        closed_trades := acc.closed_trades ++ [t2],
        total_pnl := acc.total_pnl + t1.pnl,
        win_count := if t1.pnl > (0 : ℚ) then acc.win_count + 1 else acc.win_count,
        loss_count := if t1.pnl > (0 : ℚ) then acc.loss_count else acc.loss_count + 1 }
    else { acc with open_trades := acc.open_trades ++ [t1] }

/-- `update_open_trades()` (app.py lines 140-177): return unchanged when
the snapshot is missing (`not positions or 'result' not in positions`);
otherwise iterate over a copy of the open list, rebuilding the open set
and appending closed trades. `now` is the `datetime.now().isoformat()`
stamp. -/
def update_open_trades (positions : Option (List Position)) (now : String)
    (st : BotState) : BotState :=
  match positions with
  | none => st
  | some ps => st.open_trades.foldl (reconcileStep ps now)
      { st with open_trades := [] }

/-- Response of the `/api/status` route (app.py lines 187-196), minus the
regenerated `last_update` timestamp. -/
structure StatusResponse where
  running : Bool
  environment : String
  account_balance : ℚ
  open_trades : ℕ
  total_trades : ℕ
  total_pnl : ℚ
  win_rate : ℚ
deriving DecidableEq, Repr

/-- `get_status()` (app.py lines 181-196): total trades and the guarded
win-rate division. -/
def get_status (st : BotState) : StatusResponse :=
  let total_trades := st.win_count + st.loss_count
  { running := st.running, environment := st.environment,
    account_balance := st.account_balance,
    open_trades := st.open_trades.length,
    total_trades := total_trades,
    total_pnl := st.total_pnl,
    win_rate :=
      if total_trades > 0 then (st.win_count : ℚ) / (total_trades : ℚ) else 0.0 }

/-- Direction assigned by the fusion stage: the latest order-block event's
polarity wins unconditionally; CHoCH, then engulfing, assign only while the
direction is still NEUTRAL. -/
def fusionDirection (obs : List OBEvent) (ch : List ChochEvent)
    (eng : List EngEvent) : Direction :=
  match obs.getLast? with
  | some ob => if ob.type = Polarity.bullish then Direction.buy else Direction.sell
  | none =>
    match ch.getLast? with
    | some c => if c.type = Polarity.bullish then Direction.buy else Direction.sell
    | none =>
      match eng.getLast? with
      | some e => if e.type = Polarity.bullish then Direction.buy else Direction.sell
      | none => Direction.neutral

/-- Per-index order-block emission with the bounds guard discharged and the
mutually exclusive bullish/bearish appends folded into one if-chain; the
characterization theorem for claim C8 equates `detect_order_blocks` with a
flat map of this function over `[lookback, len-1)`. -/
def obEmit (df : List Candle) (i : ℕ) : List OBEvent :=
  if (getC df i).close > (getC df i).«open»
      ∧ (getC df (i+1)).close < (getC df (i+1)).«open» then
    [{ type := Polarity.bullish, high := (getC df i).high,
       low := (getC df i).low, time := (getC df i).time, confirmed := false }]
  else if (getC df i).close < (getC df i).«open»
      ∧ (getC df (i+1)).close > (getC df (i+1)).«open» then
    [{ type := Polarity.bearish, high := (getC df i).high,
       low := (getC df i).low, time := (getC df i).time, confirmed := false }]
  else []

/-- What one reconciliation pass leaves in the open set for a given trade:
the trade unchanged when no position matches, the pnl-updated trade when the
first match has nonzero size, nothing when it has size 0 (the trade closes). -/
def reconcileKeep (ps : List Position) (t : Trade) : Option Trade :=
  match findPos ps t.symbol with
  | none => some t
  | some p =>
    if p.size.getD 0 = 0 then none
    else some { t with pnl := p.realized_pnl.getD 0 }

/-- The closed-trade record one reconciliation pass produces for a given
trade, when its first matching position reports size 0: pnl set to the
reported realized pnl, status CLOSED, `closed_at` stamped. -/
def reconcileClosed (ps : List Position) (now : String) (t : Trade) : Option Trade :=
  match findPos ps t.symbol with
  | none => none
  | some p =>
    if p.size.getD 0 = 0 then
      some { t with pnl := p.realized_pnl.getD 0,
                    status := TradeStatus.closed,
                    closed_at := some now }
    else none

/-- The bearish engulfing event the source emits at index `i`: the strength
denominator is `curr_open - prev_open` (smc_strategy.py line 90), not the
previous candle's body. -/
def c5event (df : List Candle) (i : ℕ) : EngEvent :=
  { type := Polarity.bearish, time := (getC df i).time,
    strength := ((getC df i).«open» - (getC df i).close) /
      ((getC df i).«open» - (getC df (i-1)).«open») }

/-- Candle from (time, open, high, low, close) with volume 0, used by the
concrete witness inputs. -/
def mkCandle (t o h l c : ℚ) : Candle :=
  { time := t, «open» := o, high := h, low := l, close := c, volume := 0 }

/-- Concrete signal for claim C1: a BUY signal of confidence 0.6 carrying
entry price 20000. -/
def c1sig : Signal :=
  { symbol := "BTCUSD", direction := Direction.buy, confidence := 0.6,
    order_blocks := [], choch := none, engulfing := none,
    timestamp := none, entry_price := some 20000 }

/-- Concrete open trade with id 7, for claim C2. -/
def c2trade1 : Trade :=
  { id := 7, symbol := "BTCUSD", side := Direction.buy, entry_price := 10000,
    size := 1, stop_loss := 9800, take_profit := 10400, risk := 100,
    potential_profit := 40, pnl := 0, status := TradeStatus.opened,
    opened_at := "T0", closed_at := none }

/-- A second trade with the same id 7 as `c2trade1`, for claim C2. -/
def c2trade2 : Trade := { c2trade1 with symbol := "ETHUSD" }

/-- Ledger state whose open set already holds id 7, for claim C2. -/
def c2state : BotState :=
  { running := true, environment := "testnet", account_balance := 10000,
    open_trades := [c2trade1], closed_trades := [], total_pnl := 0,
    win_count := 0, loss_count := 0 }

/-- Three-candle input on which `generate_signal` emits (bullish CHoCH at
index 2 plus bullish engulfing at index 1, strength 0.6), for claim C3. -/
def c3df : List Candle :=
  [mkCandle 0 100 100 90 90, mkCandle 1 89 101 89 101, mkCandle 2 101 200 101 102]

/-- The signal `generate_signal` emits on `c3df`: note `entry_price = none`. -/
def c3sig : Signal :=
  { symbol := "BTCUSD", direction := Direction.buy, confidence := 0.6,
    order_blocks := [], choch := some ⟨Polarity.bullish, 200, 2⟩,
    engulfing := some ⟨Polarity.bullish, 1, -(6/5)⟩, timestamp := some 2,
    entry_price := none }

/-- Open trade matched by the zero-size position `c4pos`, for claim C4. -/
def c4t1 : Trade :=
  { id := 1, symbol := "BTCUSD", side := Direction.buy, entry_price := 10000,
    size := 1, stop_loss := 9800, take_profit := 10400, risk := 100,
    potential_profit := 40, pnl := 0, status := TradeStatus.opened,
    opened_at := "T0", closed_at := none }

/-- Open trade with a symbol no position matches, for claim C4. -/
def c4t2 : Trade := { c4t1 with id := 2, symbol := "ETHUSD" }

/-- Position snapshot entry reporting size 0 and realized pnl 25. -/
def c4pos : Position :=
  { product_symbol := "BTCUSD", realized_pnl := some 25, size := some 0 }

/-- Bot state with two open trades, for claim C4. -/
def c4st : BotState :=
  { running := true, environment := "testnet", account_balance := 10000,
    open_trades := [c4t1, c4t2], closed_trades := [], total_pnl := 0,
    win_count := 0, loss_count := 0 }

/-- Two-candle input on which the bearish engulfing fires (prev bullish
100→110, current 112→98), for claim C5. -/
def c5df : List Candle :=
  [mkCandle 0 100 110 100 110, mkCandle 1 112 112 98 98]

/-- Concrete bearish order-block event, for claim C6. -/
def c6ob : OBEvent :=
  { type := Polarity.bearish, high := 1, low := 0, time := 0, confirmed := false }

/-- Concrete bearish CHoCH event, for claim C6. -/
def c6ch : ChochEvent := { type := Polarity.bearish, price := 0, time := 1 }

/-- The signal the fusion stage emits from `[c6ob]` and `[c6ch]`. -/
def c6sig : Signal :=
  { symbol := "BTCUSD", direction := Direction.sell, confidence := 0.7,
    order_blocks := [c6ob], choch := some c6ch, engulfing := none,
    timestamp := none, entry_price := none }

/-- Concrete bearish order-block event, for claim C7. -/
def c7ob : OBEvent :=
  { type := Polarity.bearish, high := 2, low := 1, time := 0, confirmed := false }

/-- Concrete bearish CHoCH event, for claim C7. -/
def c7ch : ChochEvent := { type := Polarity.bearish, price := 1, time := 1 }

/-- Three-candle input with a bullish order block at index 1 (bullish candle
followed by a bearish candle), for claim C8 with lookback 1. -/
def c8df : List Candle :=
  [mkCandle 0 5 6 4 5, mkCandle 1 10 21 9 20, mkCandle 2 30 31 24 25]

/-- The two-candle input of the claim C9 example: prev open=100 close=90,
current open=95 close=102. -/
def c9df : List Candle :=
  [mkCandle 0 100 100 90 90, mkCandle 1 95 102 95 102]

/-- Bot state with zero finished trades, for claim C10. -/
def c10stateA : BotState :=
  { running := false, environment := "testnet", account_balance := 10000,
    open_trades := [], closed_trades := [], total_pnl := 0,
    win_count := 0, loss_count := 0 }

/-- Bot state with 3 wins and 1 loss, for claim C10. -/
def c10stateB : BotState := { c10stateA with win_count := 3, loss_count := 1 }

/-- Distinct Polarity constructors are unequal (simp helper). -/
lemma bearish_ne_bullish : ¬ (Polarity.bearish = Polarity.bullish) :=
  fun h => Polarity.noConfusion h

/-- Distinct Direction constructors are unequal (simp helper). -/
lemma buy_ne_neutral : ¬ (Direction.buy = Direction.neutral) :=
  fun h => Direction.noConfusion h

/-- Distinct Direction constructors are unequal (simp helper). -/
lemma sell_ne_neutral : ¬ (Direction.sell = Direction.neutral) :=
  fun h => Direction.noConfusion h

/-- Closed form of the fusion stage: it emits exactly when the accumulated
strength reaches 0.5, with confidence `min strength 1`, the direction of
`fusionDirection`, the last three order blocks, and the latest CHoCH and
engulfing events. -/
lemma signalCore_eq (obs : List OBEvent) (ch : List ChochEvent) (eng : List EngEvent)
    (sym : String) (ts : Option ℚ) :
    signalCore obs ch eng sym ts =
      if 0.5 ≤ fusionStrength obs ch eng then
        some { symbol := sym, direction := fusionDirection obs ch eng,
               confidence := min (fusionStrength obs ch eng) 1,
               order_blocks := obs.drop (obs.length - 3),
               choch := ch.getLast?, engulfing := eng.getLast?,
               timestamp := ts, entry_price := none }
      else none := by
  rcases hob : obs.getLast? with _ | ⟨_ | _, oh, ol, ot, oc⟩ <;>
    rcases hch : ch.getLast? with _ | ⟨_ | _, cp, ct⟩ <;>
      rcases heng : eng.getLast? with _ | ⟨_ | _, et, es⟩ <;>
        norm_num [signalCore, fusionStrength, fusionDirection, hob, hch, heng, min_def,
          bearish_ne_bullish, buy_ne_neutral, sell_ne_neutral]

/-- Congruence for flat maps over the same list. -/
lemma flatMap_congr_mem {α β : Type} {l : List α} {f g : α → List β}
    (h : ∀ a ∈ l, f a = g a) : l.flatMap f = l.flatMap g := by
  induction l with
  | nil => rfl
  | cons a l ih =>
    rw [List.flatMap_cons, List.flatMap_cons, h a (by simp),
      ih fun b hb => h b (by simp [hb])]

/-- Closed form of the reconciliation fold: the open set is rebuilt through
`reconcileKeep`, closed trades are appended through `reconcileClosed`, and the
aggregates gain exactly the closed trades' pnl sum, win count and loss count. -/
lemma reconcile_foldl (ps : List Position) (now : String) (ts : List Trade)
    (acc : BotState) :
    List.foldl (reconcileStep ps now) acc ts =
      { acc with
        open_trades := acc.open_trades ++ ts.filterMap (reconcileKeep ps),
        closed_trades := acc.closed_trades ++ ts.filterMap (reconcileClosed ps now),
        total_pnl := acc.total_pnl
          + ((ts.filterMap (reconcileClosed ps now)).map Trade.pnl).sum,
        win_count := acc.win_count
          + ((ts.filterMap (reconcileClosed ps now)).filter
              (fun t => decide ((0:ℚ) < t.pnl))).length,
        loss_count := acc.loss_count
          + ((ts.filterMap (reconcileClosed ps now)).filter
              (fun t => !decide ((0:ℚ) < t.pnl))).length } := by
  induction ts generalizing acc with
  | nil => simp
  | cons t ts ih =>
    rw [List.foldl_cons, ih]
    rcases hfp : findPos ps t.symbol with _ | p
    · simp [reconcileStep, reconcileKeep, reconcileClosed, hfp, List.filterMap_cons]
    · by_cases hz : p.size.getD 0 = 0
      · by_cases hw : (0:ℚ) < p.realized_pnl.getD 0
        · simp [reconcileStep, reconcileKeep, reconcileClosed, hfp, hz, hw,
            List.filterMap_cons, add_assoc, add_comm, add_left_comm]
        · simp [reconcileStep, reconcileKeep, reconcileClosed, hfp, hz, hw,
            List.filterMap_cons, add_assoc, add_comm, add_left_comm]
      · simp [reconcileStep, reconcileKeep, reconcileClosed, hfp, hz,
          List.filterMap_cons, add_assoc, add_comm, add_left_comm]

/-- C1 counterexample: at balance 10000, riskParams (0.01, 0.05, 2.0), a BUY
signal of confidence 0.6 with entry price 20000, the code returns
takeProfit = 20000·(1 + 2.0·0.02) = 20800 and potentialProfit = 20, not the
claimed 21600 and 40. -/
theorem claim1_counterexample :
    (calculate_position RISK_PARAMS (some c1sig) 10000).map PositionPlan.take_profit
        = some 20800
    ∧ (calculate_position RISK_PARAMS (some c1sig) 10000).map
        PositionPlan.potential_profit = some 20
    ∧ (20800 : ℚ) ≠ 21600 ∧ (20 : ℚ) ≠ 40 := by
  norm_num [calculate_position, c1sig, RISK_PARAMS, min_def]

/-- C1 (amended): for the Risk Sizer with balance 10000,
maxRiskPerTrade 0.01, maxPositionSize 0.05, rewardRiskRatio 2.0, a Buy
signal of confidence ≥ 0.5 and entry price 20000, `calculate_position`
returns riskAmount = 100, stopLoss = 19600, size = 0.025
(min of rawSize 0.25 and maxSize 0.025), takeProfit = 20800
(= entry·(1 + rewardRiskRatio·0.02)) and potentialProfit = 20.0 — not the
claimed takeProfit 21600 and potentialProfit 40. -/
theorem claim1_amended (s : Signal) (hd : s.direction = Direction.buy)
    (hc : 0.5 ≤ s.confidence) (he : s.entry_price = some 20000) :
    calculate_position RISK_PARAMS (some s) 10000 =
      some { entry_price := 20000, stop_loss := 19600, take_profit := 20800,
             position_size := 0.025, side := Direction.buy, risk_amount := 100,
             potential_profit := 20 } := by
  simp only [calculate_position, if_neg (not_lt.mpr hc), hd, he]
  norm_num [RISK_PARAMS, min_def]

/-- Witness for C1: the amended theorem applied to the concrete signal. -/
theorem claim1_amended_witness :
    0.5 ≤ c1sig.confidence
    ∧ calculate_position RISK_PARAMS (some c1sig) 10000 =
      some { entry_price := 20000, stop_loss := 19600, take_profit := 20800,
             position_size := 0.025, side := Direction.buy, risk_amount := 100,
             potential_profit := 20 } :=
  ⟨by norm_num [c1sig], claim1_amended c1sig rfl (by norm_num [c1sig]) rfl⟩

/-- C2 counterexample: the open set already holds a trade with id 7, yet
inserting another trade with id 7 succeeds — both trades end up in the open
set; there is no DuplicateId failure in the code. -/
theorem claim2_counterexample :
    c2trade1.id = c2trade2.id
    ∧ c2trade1 ∈ c2state.open_trades
    ∧ (insertTrade c2state c2trade2).open_trades = [c2trade1, c2trade2] := by
  refine ⟨rfl, by simp [c2state], by simp [insertTrade, c2state]⟩

/-- C2 (amended): inserting a trade always appends it to the open set —
the new trade is present, the open count grows by one, every previously
open trade (including any with the same id) stays, and the closed set is
untouched; no DuplicateId check exists. -/
theorem claim2_amended (st : BotState) (t : Trade) :
    t ∈ (insertTrade st t).open_trades
    ∧ (insertTrade st t).open_trades.length = st.open_trades.length + 1
    ∧ (∀ t' ∈ st.open_trades, t' ∈ (insertTrade st t).open_trades)
    ∧ (insertTrade st t).closed_trades = st.closed_trades := by
  refine ⟨?_, ?_, ?_, rfl⟩ <;> simp [insertTrade]
  exact fun t' h => Or.inl h

/-- Witness for C2: the amended theorem applied to a state already holding
the same id. -/
theorem claim2_amended_witness :
    c2trade1 ∈ (insertTrade c2state c2trade2).open_trades
    ∧ c2trade1.id = c2trade2.id :=
  ⟨(claim2_amended c2state c2trade2).2.2.1 c2trade1 (by simp [c2state]), rfl⟩

/-- C3: every signal emitted by `generate_signal` carries no entry price
(`entry_price = none`), so `calculate_position` on that signal — for any
risk parameters and any balance — uses the hardcoded fallback entry price
10000. -/
theorem claim3_entry_fallback (df : List Candle) (symbol : String) (s : Signal)
    (h : generate_signal df symbol = some s) :
    s.entry_price = none
    ∧ ∀ (rp : RiskParams) (balance : ℚ),
        (calculate_position rp (some s) balance).map PositionPlan.entry_price
          = some 10000 := by
  rw [generate_signal, signalCore_eq] at h
  by_cases hc : 0.5 ≤ fusionStrength (detect_order_blocks df 50) (detect_choch df)
      (detect_engulfing df)
  · rw [if_pos hc] at h
    injection h with h
    subst h
    refine ⟨rfl, fun rp balance => ?_⟩
    have hconf : ¬ (min (fusionStrength (detect_order_blocks df 50) (detect_choch df)
        (detect_engulfing df)) 1 < 0.5) :=
      not_lt.mpr (le_min hc (by norm_num))
    simp only [calculate_position, if_neg hconf]
    simp
  · rw [if_neg hc] at h; cases h

/-- Evaluation of the pipeline on the concrete three-candle input `c3df`. -/
lemma c3df_signal : generate_signal c3df "BTCUSD" = some c3sig := by
  have hob : detect_order_blocks c3df 50 = [] := by
    norm_num [detect_order_blocks, c3df, List.range']
  have hch : detect_choch c3df = [⟨Polarity.bullish, 200, 2⟩] := by
    have h2 : chochAt c3df 2 = some ⟨Polarity.bullish, 200, 2⟩ := by
      norm_num [chochAt, getC, c3df, mkCandle, dfltCandle, slice, listMax, listMin,
        max_def, min_def]
    have hl : c3df.length = 3 := by simp [c3df]
    simp [detect_choch, hl, List.range', h2]
  have heng : detect_engulfing c3df = [⟨Polarity.bullish, 1, -(6/5)⟩] := by
    norm_num [detect_engulfing, engAt, getC, c3df, mkCandle, dfltCandle, List.range']
  rw [generate_signal, hob, hch, heng]
  norm_num [signalCore, c3sig, min_def, c3df, mkCandle]

/-- Witness for C3: on `c3df` a signal is emitted with no entry price, and
sizing it uses the fallback entry 10000. -/
theorem claim3_witness :
    c3sig.entry_price = none
    ∧ (calculate_position RISK_PARAMS (some c3sig) 10000).map PositionPlan.entry_price
        = some 10000 := by
  have h := claim3_entry_fallback c3df "BTCUSD" c3sig c3df_signal
  exact ⟨h.1, h.2 RISK_PARAMS 10000⟩

/-- C4: in one reconciliation pass over a position snapshot, the open set is
exactly the trades kept by `reconcileKeep` (unchanged when no position
matches their symbol, pnl set to the reported realized pnl when the first
match has nonzero size), the closed set gains exactly the `reconcileClosed`
records (pnl set, status CLOSED, closedAt stamped) in order, totalPnl grows
by exactly the closed trades' pnl sum, winCount by the number of closed
trades with pnl > 0 and lossCount by the rest; per trade the unchanged /
pnl-updated / closed record lands in the respective set, and keeping and
closing are mutually exclusive, so a trade transitions at most once. -/
theorem claim4_reconciliation (ps : List Position) (now : String) (st : BotState) :
    (update_open_trades (some ps) now st).open_trades
        = st.open_trades.filterMap (reconcileKeep ps)
    ∧ (update_open_trades (some ps) now st).closed_trades
        = st.closed_trades ++ st.open_trades.filterMap (reconcileClosed ps now)
    ∧ (update_open_trades (some ps) now st).total_pnl
        = st.total_pnl
          + ((st.open_trades.filterMap (reconcileClosed ps now)).map Trade.pnl).sum
    ∧ (update_open_trades (some ps) now st).win_count
        = st.win_count
          + ((st.open_trades.filterMap (reconcileClosed ps now)).filter
              (fun t => decide ((0:ℚ) < t.pnl))).length
    ∧ (update_open_trades (some ps) now st).loss_count
        = st.loss_count
          + ((st.open_trades.filterMap (reconcileClosed ps now)).filter
              (fun t => !decide ((0:ℚ) < t.pnl))).length
    ∧ (∀ t ∈ st.open_trades, findPos ps t.symbol = none →
        t ∈ (update_open_trades (some ps) now st).open_trades)
    ∧ (∀ t ∈ st.open_trades, ∀ p, findPos ps t.symbol = some p →
        p.size.getD 0 ≠ 0 →
        { t with pnl := p.realized_pnl.getD 0 }
          ∈ (update_open_trades (some ps) now st).open_trades)
    ∧ (∀ t ∈ st.open_trades, ∀ p, findPos ps t.symbol = some p →
        p.size.getD 0 = 0 →
        { t with pnl := p.realized_pnl.getD 0,
                 status := TradeStatus.closed,
                 closed_at := some now }
          ∈ (update_open_trades (some ps) now st).closed_trades)
    ∧ (∀ t : Trade,
        ¬ ((reconcileKeep ps t).isSome ∧ (reconcileClosed ps now t).isSome)) := by
  have hu : update_open_trades (some ps) now st
      = List.foldl (reconcileStep ps now) { st with open_trades := [] }
          st.open_trades := rfl
  rw [hu, reconcile_foldl]
  refine ⟨by simp, rfl, rfl, rfl, rfl, ?_, ?_, ?_, ?_⟩
  · intro t ht hf
    simp only [List.nil_append]
    exact List.mem_filterMap.mpr ⟨t, ht, by simp [reconcileKeep, hf]⟩
  · intro t ht p hp hz
    simp only [List.nil_append]
    exact List.mem_filterMap.mpr ⟨t, ht, by simp [reconcileKeep, hp, hz]⟩
  · intro t ht p hp hz
    exact List.mem_append_right _
      (List.mem_filterMap.mpr ⟨t, ht, by simp [reconcileClosed, hp, hz]⟩)
  · rintro t ⟨hk, hc⟩
    rcases hfp : findPos ps t.symbol with _ | p
    · simp [reconcileClosed, hfp] at hc
    · by_cases hz : p.size.getD 0 = 0
      · simp [reconcileKeep, hfp, hz] at hk
      · simp [reconcileClosed, hfp, hz] at hc

/-- Witness for C4: on the concrete state, the matched zero-size trade lands
in the closed set with pnl 25, status CLOSED and closedAt stamped, while the
unmatched trade stays in the open set unchanged. -/
theorem claim4_witness :
    ({ c4t1 with pnl := 25, status := TradeStatus.closed,
                 closed_at := some "T1" } : Trade)
      ∈ (update_open_trades (some [c4pos]) "T1" c4st).closed_trades
    ∧ c4t2 ∈ (update_open_trades (some [c4pos]) "T1" c4st).open_trades := by
  have h := claim4_reconciliation [c4pos] "T1" c4st
  constructor
  · have hm := h.2.2.2.2.2.2.2.1 c4t1 (by simp [c4st]) c4pos
      (by simp [findPos, c4pos, c4t1]) (by simp [c4pos])
    exact hm
  · have hm := h.2.2.2.2.2.1 c4t2 (by simp [c4st])
      (by simp [findPos, c4pos, c4t1, c4t2])
    exact hm

/-- C5 counterexample: on a firing bearish engulfing (prev 100→110, current
112→98) the emitted strength is (112−98)/(112−100) = 7/6, which is not the
current-body over previous-body ratio 14/10 under any sign convention. -/
theorem claim5_counterexample :
    detect_engulfing c5df
      = [{ type := Polarity.bearish, time := 1, strength := 7/6 }]
    ∧ (7 : ℚ)/6 ≠ (112 - 98) / (110 - 100)
    ∧ (7 : ℚ)/6 ≠ -((112 - 98) / (110 - 100))
    ∧ (7 : ℚ)/6 ≠ (98 - 112) / (110 - 100) := by
  refine ⟨?_, by norm_num, by norm_num, by norm_num⟩
  norm_num [detect_engulfing, engAt, getC, c5df, mkCandle, dfltCandle, List.range']

/-- C5 (amended): whenever the bearish engulfing fires at index i (previous
candle bullish, current close below previous open, current open above
previous close), the emitted strength is
(open[i] − close[i]) / (open[i] − open[i−1]) — the current body over the
current-open minus previous-open spread, not over the previous candle's
body. -/
theorem claim5_amended (df : List Candle) (i : ℕ)
    (h1 : (getC df (i-1)).close > (getC df (i-1)).«open»)
    (h2 : (getC df i).close < (getC df (i-1)).«open»)
    (h3 : (getC df i).«open» > (getC df (i-1)).close) :
    engAt df i = [c5event df i]
    ∧ (1 ≤ i → i < df.length → c5event df i ∈ detect_engulfing df) := by
  have hbull : ¬ ((getC df (i-1)).close < (getC df (i-1)).«open»
      ∧ (getC df i).close > (getC df (i-1)).«open»
      ∧ (getC df i).«open» < (getC df (i-1)).close) :=
    fun hcon => absurd h1 (not_lt.mpr hcon.1.le)
  have heq : engAt df i = [c5event df i] := by
    simp only [engAt, c5event]
    rw [if_neg hbull, if_pos ⟨h1, h2, h3⟩, List.nil_append]
  refine ⟨heq, fun hi hlen => ?_⟩
  rw [detect_engulfing, List.mem_flatMap]
  refine ⟨i, ?_, by rw [heq]; exact List.mem_singleton.mpr rfl⟩
  rw [List.mem_range'_1]
  omega

/-- Witness for C5: the amended theorem applied to the concrete firing input. -/
theorem claim5_amended_witness :
    engAt c5df 1 = [c5event c5df 1]
    ∧ c5event c5df 1 ∈ detect_engulfing c5df := by
  have h := claim5_amended c5df 1 (by norm_num [getC, c5df, mkCandle])
    (by norm_num [getC, c5df, mkCandle]) (by norm_num [getC, c5df, mkCandle])
  exact ⟨h.1, h.2 le_rfl (by norm_num [c5df])⟩

/-- C6: the fusion stage emits a signal iff the accumulated strength (0.4 for
an order-block event, 0.3 more for a CHoCH event, 0.3 more for an engulfing
event) reaches 0.5; every emitted signal has confidence = min(strength, 1),
hence confidence in [0.5, 1]; and with only a bearish order block present
(strength 0.4) no signal is emitted. Determinism holds by construction: the
embedding is a pure function of its inputs. -/
theorem claim6_fusion_gate (obs : List OBEvent) (ch : List ChochEvent)
    (eng : List EngEvent) (sym : String) (ts : Option ℚ) :
    ((signalCore obs ch eng sym ts).isSome ↔ 0.5 ≤ fusionStrength obs ch eng)
    ∧ (∀ s, signalCore obs ch eng sym ts = some s →
        s.confidence = min (fusionStrength obs ch eng) 1
        ∧ 0.5 ≤ s.confidence ∧ s.confidence ≤ 1)
    ∧ (∀ ob, obs.getLast? = some ob → ob.type = Polarity.bearish →
        ch = [] → eng = [] → signalCore obs ch eng sym ts = none) := by
  refine ⟨?_, ?_, ?_⟩
  · rw [signalCore_eq]
    by_cases h : 0.5 ≤ fusionStrength obs ch eng <;> simp [h]
  · intro s hs
    rw [signalCore_eq] at hs
    by_cases h : 0.5 ≤ fusionStrength obs ch eng
    · rw [if_pos h] at hs
      injection hs with hs
      subst hs
      exact ⟨rfl, le_min h (by norm_num), min_le_right _ _⟩
    · rw [if_neg h] at hs; cases hs
  · intro ob hob hobt hch heng
    subst hch heng
    have h : ¬ (0.5 ≤ fusionStrength obs [] []) := by
      simp only [fusionStrength, hob, List.getLast?_nil]
      norm_num
    rw [signalCore_eq, if_neg h]

/-- Witness for C6: a lone bearish order block emits nothing; adding a
bearish CHoCH emits with confidence 0.7 ∈ [0.5, 1]. -/
theorem claim6_witness :
    signalCore [c6ob] [] [] "BTCUSD" none = none
    ∧ ((signalCore [c6ob] [c6ch] [] "BTCUSD" none).isSome
        ↔ 0.5 ≤ fusionStrength [c6ob] [c6ch] [])
    ∧ (c6sig.confidence = min (fusionStrength [c6ob] [c6ch] []) 1
        ∧ 0.5 ≤ c6sig.confidence ∧ c6sig.confidence ≤ 1) := by
  refine ⟨?_, ?_, ?_⟩
  · exact (claim6_fusion_gate [c6ob] [] [] "BTCUSD" none).2.2 c6ob rfl rfl rfl rfl
  · exact (claim6_fusion_gate [c6ob] [c6ch] [] "BTCUSD" none).1
  · refine (claim6_fusion_gate [c6ob] [c6ch] [] "BTCUSD" none).2.1 c6sig ?_
    norm_num [signalCore, c6ob, c6ch, c6sig, min_def, bearish_ne_bullish,
      sell_ne_neutral]

/-- C7: the direction of an emitted signal comes unconditionally from the
latest order-block event's polarity when one exists; CHoCH sets it only when
no order block exists, and engulfing only when neither exists (precedence
order-block > CHoCH > engulfing); in particular a bearish order block plus a
bearish CHoCH yields strength 0.7, direction Sell, confidence 0.7, and an
emitted signal. -/
theorem claim7_direction_precedence (obs : List OBEvent) (ch : List ChochEvent)
    (eng : List EngEvent) (sym : String) (ts : Option ℚ) :
    (∀ ob, obs.getLast? = some ob → ∀ s, signalCore obs ch eng sym ts = some s →
        s.direction = if ob.type = Polarity.bullish then Direction.buy
          else Direction.sell)
    ∧ (obs = [] → ∀ c, ch.getLast? = some c →
        ∀ s, signalCore obs ch eng sym ts = some s →
        s.direction = if c.type = Polarity.bullish then Direction.buy
          else Direction.sell)
    ∧ (obs = [] → ch = [] → ∀ e, eng.getLast? = some e →
        ∀ s, signalCore obs ch eng sym ts = some s →
        s.direction = if e.type = Polarity.bullish then Direction.buy
          else Direction.sell)
    ∧ (∀ ob c, obs.getLast? = some ob → ob.type = Polarity.bearish →
        ch.getLast? = some c → c.type = Polarity.bearish → eng = [] →
        signalCore obs ch eng sym ts
          = some { symbol := sym, direction := Direction.sell, confidence := 0.7,
                   order_blocks := obs.drop (obs.length - 3), choch := some c,
                   engulfing := none, timestamp := ts, entry_price := none }) := by
  refine ⟨?_, ?_, ?_, ?_⟩
  · intro ob hob s hs
    rw [signalCore_eq] at hs
    by_cases h : 0.5 ≤ fusionStrength obs ch eng
    · rw [if_pos h] at hs; injection hs with hs; subst hs
      simp only [fusionDirection, hob]
    · rw [if_neg h] at hs; cases hs
  · rintro rfl c hch s hs
    rw [signalCore_eq] at hs
    by_cases h : 0.5 ≤ fusionStrength [] ch eng
    · rw [if_pos h] at hs; injection hs with hs; subst hs
      simp only [fusionDirection, hch, List.getLast?_nil]
    · rw [if_neg h] at hs; cases hs
  · rintro rfl rfl e heng s hs
    rw [signalCore_eq] at hs
    by_cases h : 0.5 ≤ fusionStrength [] [] eng
    · rw [if_pos h] at hs; injection hs with hs; subst hs
      simp only [fusionDirection, heng, List.getLast?_nil]
    · rw [if_neg h] at hs; cases hs
  · intro ob c hob hobt hch hct heng
    subst heng
    have hstr : fusionStrength obs ch [] = 0.7 := by
      simp only [fusionStrength, hob, hch, List.getLast?_nil]
      norm_num
    rw [signalCore_eq, hstr, if_pos (by norm_num)]
    simp only [fusionDirection, hob, hobt, hch, List.getLast?_nil]
    norm_num [min_def, bearish_ne_bullish]

/-- Witness for C7: the concrete bearish order block + bearish CHoCH case. -/
theorem claim7_witness :
    signalCore [c7ob] [c7ch] [] "ETHUSD" (some 1)
      = some { symbol := "ETHUSD", direction := Direction.sell, confidence := 0.7,
               order_blocks := [c7ob], choch := some c7ch, engulfing := none,
               timestamp := some 1, entry_price := none }
    ∧ (∀ s, signalCore [c7ob] [c7ch] [] "ETHUSD" (some 1) = some s →
        s.direction = if c7ob.type = Polarity.bullish then Direction.buy
          else Direction.sell) := by
  have h := claim7_direction_precedence [c7ob] [c7ch] [] "ETHUSD" (some 1)
  refine ⟨?_, fun s hs => h.1 c7ob rfl s hs⟩
  exact h.2.2.2 c7ob c7ch rfl rfl rfl rfl rfl

/-- C8: for any candle sequence of length L ≥ lookback + 1, order-block
detection equals the flat map, in chronological index order, of the
one-event-per-index emitter `obEmit` over exactly the indices
[lookback, L−1): each qualifying index yields exactly one event (the
bullish and bearish conditions are mutually exclusive), the final index
L−1 contributes nothing, and only candles at positions ≤ L−1 are read;
determinism across repeated calls is definitional for the pure embedding. -/
theorem claim8_order_blocks (df : List Candle) (lookback : ℕ)
    (h : lookback + 1 ≤ df.length) :
    detect_order_blocks df lookback
      = (List.range' lookback (df.length - 1 - lookback)).flatMap (obEmit df)
    ∧ detect_order_blocks df lookback = detect_order_blocks df lookback := by
  refine ⟨?_, rfl⟩
  rw [detect_order_blocks]
  have hsplit : df.length - lookback = (df.length - 1 - lookback) + 1 := by omega
  rw [hsplit, List.range'_concat, List.flatMap_append]
  have h1n : lookback + 1 * (df.length - 1 - lookback) = df.length - 1 := by omega
  rw [h1n]
  have hguard : ¬ (df.length - 1 + 1 < df.length) := by omega
  have hlast : List.flatMap [df.length - 1] (obAt df) = [] := by
    simp [obAt, hguard]
  rw [hlast, List.append_nil]
  refine flatMap_congr_mem fun i hi => ?_
  rw [List.mem_range'_1] at hi
  have hi1 : i + 1 < df.length := by omega
  by_cases h1 : (getC df i).close > (getC df i).«open» <;>
    by_cases h2 : (getC df i).close < (getC df i).«open» <;>
      by_cases h3 : (getC df (i+1)).close < (getC df (i+1)).«open» <;>
        by_cases h4 : (getC df (i+1)).close > (getC df (i+1)).«open» <;>
          first
            | exact absurd h2 (lt_asymm h1)
            | exact absurd h4 (lt_asymm h3)
            | simp [obAt, obEmit, h1, h2, h3, h4, hi1]

/-- Witness for C8: on the concrete three-candle input with lookback 1,
the characterization evaluates to the single bullish block at index 1. -/
theorem claim8_witness :
    1 + 1 ≤ c8df.length
    ∧ detect_order_blocks c8df 1
      = [{ type := Polarity.bullish, high := 21, low := 9, time := 1,
           confirmed := false }] := by
  refine ⟨by norm_num [c8df], ?_⟩
  rw [(claim8_order_blocks c8df 1 (by norm_num [c8df])).1]
  norm_num [c8df, mkCandle, obEmit, getC, dfltCandle, List.range']

/-- C9 counterexample: on prev open=100 close=90 and current open=95
close=102 the detector emits no event at all — in particular no event of
strength −0.7 — because the engulfing condition open[i] < close[i−1]
(95 < 90) fails. -/
theorem claim9_counterexample :
    ¬ ∃ e ∈ detect_engulfing c9df, e.strength = -0.7 := by
  have h : detect_engulfing c9df = [] := by
    norm_num [detect_engulfing, engAt, getC, c9df, mkCandle, dfltCandle, List.range']
  simp [h]

/-- C9 (amended): on the documented example input the detector emits no
event, since the bullish-engulfing condition current open < previous close
fails (95 ≥ 90); the strength formula (close−open)/(prevClose−prevOpen)
would evaluate to exactly −0.7 at these values, but it is never reached. -/
theorem claim9_amended :
    detect_engulfing c9df = []
    ∧ ¬ ((95 : ℚ) < 90)
    ∧ ((102 : ℚ) - 95) / (90 - 100) = -0.7 := by
  refine ⟨?_, by norm_num, by norm_num⟩
  norm_num [detect_engulfing, engAt, getC, c9df, mkCandle, dfltCandle, List.range']

/-- C10: the status operation never divides by zero — when
winCount + lossCount = 0 it reports winRate = 0, otherwise
winRate = winCount / (winCount + lossCount); it is a total function of the
bot state. -/
theorem claim10_status_total (st : BotState) :
    (st.win_count + st.loss_count = 0 → (get_status st).win_rate = 0)
    ∧ (0 < st.win_count + st.loss_count →
        (get_status st).win_rate
          = (st.win_count : ℚ) / ((st.win_count + st.loss_count : ℕ) : ℚ))
    ∧ (get_status st).total_trades = st.win_count + st.loss_count := by
  refine ⟨fun h => ?_, fun h => ?_, rfl⟩
  · norm_num [get_status, h]
  · simp [get_status, h]

/-- Witness for C10: zero trades give winRate 0; three wins and one loss
give winRate 3/4. -/
theorem claim10_witness :
    (get_status c10stateA).win_rate = 0 ∧ (get_status c10stateB).win_rate = 3/4 := by
  constructor
  · exact (claim10_status_total c10stateA).1 rfl
  · have h := (claim10_status_total c10stateB).2.1 (by norm_num [c10stateB, c10stateA])
    rw [h]; norm_num [c10stateB, c10stateA]

end SMC
